import Mathlib

/-!
# Verification of the AIWendy roundtable orchestration frontend

Shallow embedding of the roundtable chat client
(`apps/web/components/roundtable/RoundtableChat.tsx`), the coach roster
selector (`CoachMultiSelector`), and a spec-modelled round orchestrator
for the server side (whose source is not part of the repository slice;
only the spec describes it).

All definitions are executable; machine-level concerns (timestamps from
`Date.now()`, DOM rendering, network transport) are outside the embedding:
messages are modelled without their timestamp-derived `id`/`created_at`
fields, which no claim mentions.
-/

namespace AIWendy

/-! ## Basic enumerations shared by the client and the protocol -/

inductive DiscussionMode
  | free
  | moderated
deriving DecidableEq, Repr

inductive DebateStyle
  | converge
  | clash
deriving DecidableEq, Repr

inductive KbTiming
  | off
  | message
  | round
  | coach
  | moderator
deriving DecidableEq, Repr

/-- Message kinds: `response` for coaches; moderator sub-phases are an
enumerated tag with no further branching logic. -/
inductive MessageType
  | response
  | summary
  | closing
deriving DecidableEq, Repr

inductive Role
  | user
  | assistant
deriving DecidableEq, Repr

/-- Model-parameter bundle handed to the chat component
(`ModelConfig` from `components/chat/ModelSelector`): fields read by
`RoundtableChat.handleSend` are `configId`, `provider`, `model`,
`temperature`, `maxTokens`.  `temperature` is a TS `number`; it is only
carried, never computed with, so it is embedded as `Rat`. -/
structure ModelConfig where
  configId : Option String
  provider : String
  model : String
  temperature : Rat
  maxTokens : Nat
deriving DecidableEq, Repr

/-- Knowledge-injection settings (props `kbTiming`, `kbTopK`,
`kbMaxCandidates` of `RoundtableChat`). -/
structure KbSettings where
  timing : KbTiming
  topK : Nat
  maxCandidates : Nat
deriving DecidableEq, Repr

/-- The exchange invocation payload built in `handleSend`
(`chatRequest`, RoundtableChat.tsx lines 287-301).  Attachment payloads
are opaque strings. -/
structure ChatRequest where
  session_id : String
  content : String
  attachments : Option (List String)
  max_rounds : Nat
  debate_style : Option DebateStyle
  config_id : Option String
  provider : Option String
  model : Option String
  temperature : Rat
  max_tokens : Nat
  kb_timing : KbTiming
  kb_top_k : Nat
  kb_max_candidates : Nat
deriving DecidableEq, Repr

/-- TS `x || undefined` on a string field: the empty string becomes
`undefined`. -/
def orUndefined (s : String) : Option String :=
  if s = "" then none else some s

/-- The request construction of `handleSend` (RoundtableChat.tsx lines
282-301): each effective value is selected by the single `overrideEnabled`
flag, then the request record is assembled. -/
def buildChatRequest (sessionId : String) (mode : DiscussionMode)
    (userContent : String) (apiAttachments : List String) (maxRounds : Nat)
    (debateStyle : DebateStyle) (overrideEnabled : Bool)
    (modelConfig overrideModelConfig : ModelConfig)
    (kb overrideKb : KbSettings) : ChatRequest :=
  let effectiveModel := if overrideEnabled then overrideModelConfig else modelConfig
  let effectiveKbTiming := if overrideEnabled then overrideKb.timing else kb.timing
  let effectiveKbTopK := if overrideEnabled then overrideKb.topK else kb.topK
  let effectiveKbMaxCandidates :=
    if overrideEnabled then overrideKb.maxCandidates else kb.maxCandidates
  { session_id := sessionId
    content := userContent
    attachments := if apiAttachments.isEmpty then none else some apiAttachments
    max_rounds := maxRounds
    debate_style := if mode = DiscussionMode.free then some debateStyle else none
    config_id := effectiveModel.configId
    provider := orUndefined effectiveModel.provider
    model := orUndefined effectiveModel.model
    temperature := effectiveModel.temperature
    max_tokens := effectiveModel.maxTokens
    kb_timing := effectiveKbTiming
    kb_top_k := effectiveKbTopK
    kb_max_candidates := effectiveKbMaxCandidates }

/-- The spec's tagged choice for configuration selection
(design note: UseSessionDefaults or UseOverride, never a field-by-field
merge). -/
inductive ConfigChoice
  | useSessionDefaults
  | useOverride (model : ModelConfig) (kb : KbSettings)
deriving DecidableEq, Repr

/-- Builds a request whose model-parameter and knowledge fields are all
drawn from one single bundle. -/
def requestFromBundle (sessionId : String) (mode : DiscussionMode)
    (userContent : String) (apiAttachments : List String) (maxRounds : Nat)
    (debateStyle : DebateStyle) (bundle : ModelConfig) (kbBundle : KbSettings) :
    ChatRequest :=
  { session_id := sessionId
    content := userContent
    attachments := if apiAttachments.isEmpty then none else some apiAttachments
    max_rounds := maxRounds
    debate_style := if mode = DiscussionMode.free then some debateStyle else none
    config_id := bundle.configId
    provider := orUndefined bundle.provider
    model := orUndefined bundle.model
    temperature := bundle.temperature
    max_tokens := bundle.maxTokens
    kb_timing := kbBundle.timing
    kb_top_k := kbBundle.topK
    kb_max_candidates := kbBundle.maxCandidates }

/-- The spec-side description of the request construction: first a single
tagged choice is made, then every configuration field is taken from the
chosen bundle. -/
def buildChatRequestTagged (sessionId : String) (mode : DiscussionMode)
    (userContent : String) (apiAttachments : List String) (maxRounds : Nat)
    (debateStyle : DebateStyle) (overrideEnabled : Bool)
    (modelConfig overrideModelConfig : ModelConfig)
    (kb overrideKb : KbSettings) : ChatRequest :=
  match (if overrideEnabled then
           ConfigChoice.useOverride overrideModelConfig overrideKb
         else ConfigChoice.useSessionDefaults) with
  | ConfigChoice.useSessionDefaults =>
      requestFromBundle sessionId mode userContent apiAttachments maxRounds
        debateStyle modelConfig kb
  | ConfigChoice.useOverride m k =>
      requestFromBundle sessionId mode userContent apiAttachments maxRounds
        debateStyle m k

/-! ## Coach roster selector (`CoachMultiSelector`, src/unnamed/part_006) -/

/-- `handleToggle` of `CoachMultiSelector`: remove an already-selected
coach, otherwise add it only while strictly below `maxCount`. -/
def handleToggle (maxCount : Nat) (selectedIds : List String)
    (coachId : String) : List String :=
  if coachId ∈ selectedIds then
    selectedIds.filter (fun id => id ≠ coachId)
  else if selectedIds.length < maxCount then
    selectedIds ++ [coachId]
  else
    selectedIds

/-- `isValid` of `CoachMultiSelector`:
`selectedIds.length >= minCount && selectedIds.length <= maxCount`. -/
def isValidSelection (minCount maxCount : Nat) (selectedIds : List String) : Bool :=
  decide (minCount ≤ selectedIds.length) && decide (selectedIds.length ≤ maxCount)

/-! ## Streaming event handling (`handleStreamEvent`, RoundtableChat.tsx) -/

/-- The outbound protocol events consumed by the client
(`RoundtableEvent`). -/
inductive RoundtableEvent
  | round_start (round : Nat)
  | coach_start (coach_id coach_name coach_avatar : String)
  | moderator_start (coach_id coach_name coach_avatar : String)
      (message_type : MessageType)
  | content (coach_id : String) (text : String)
  | coach_end (coach_id : String)
  | moderator_end (coach_id : String) (message_type : MessageType)
  | round_end (round : Nat)
  | done
  | error (coach_id : Option String) (text : String)
deriving DecidableEq, Repr

/-- One in-flight streaming card (`StreamingCoachResponse`).  All fields
other than `content` are `Option` because the JS `content` handler can
create an entry by spreading `undefined` (`{...prev[id], content: ...}`)
when no start event was processed. -/
structure StreamingCoachResponse where
  coach_id : Option String
  coach_name : Option String
  coach_avatar : Option String
  content : String
  isStreaming : Option Bool
  message_type : Option MessageType
deriving DecidableEq, Repr

/-- A conversation message (`RoundtableMessage`), restricted to the
fields the component manipulates; the timestamp-derived `id` and
`created_at` and the display-only `coach` object are outside the
embedding. -/
structure RoundtableMessage where
  coach_id : Option String
  role : Role
  content : String
  message_type : MessageType
  turn_number : Option Nat
deriving DecidableEq, Repr

/-- A JS object keyed by strings: an insertion-ordered association list.
Assigning an existing key updates it in place, as JS objects do. -/
def setKey {α : Type} : List (String × α) → String → α → List (String × α)
  | [], k, v => [(k, v)]
  | (k1, v1) :: rest, k, v =>
      if k1 = k then (k, v) :: rest else (k1, v1) :: setKey rest k v

def findKey {α : Type} : List (String × α) → String → Option α
  | [], _ => none
  | (k1, v1) :: rest, k => if k1 = k then some v1 else findKey rest k

/-- Key removal by rest-destructuring: `const { [id]: _, ...rest }`. -/
def removeKey {α : Type} : List (String × α) → String → List (String × α)
  | [], _ => []
  | (k1, v1) :: rest, k =>
      if k1 = k then removeKey rest k else (k1, v1) :: removeKey rest k

lemma findKey_setKey_self {α : Type} (l : List (String × α)) (k : String) (v : α) :
    findKey (setKey l k v) k = some v := by
  induction l with
  | nil => simp [setKey, findKey]
  | cons p rest ih =>
      obtain ⟨k1, v1⟩ := p
      by_cases h : k1 = k
      · simp [setKey, h, findKey]
      · simp [setKey, h, findKey, ih]

lemma findKey_setKey_ne {α : Type} (l : List (String × α)) (k k2 : String) (v : α)
    (h : k2 ≠ k) : findKey (setKey l k v) k2 = findKey l k2 := by
  have hne : ¬(k = k2) := fun h2 => h h2.symm
  induction l with
  | nil => simp [setKey, findKey, hne]
  | cons p rest ih =>
      obtain ⟨k1, v1⟩ := p
      by_cases h1 : k1 = k
      · subst h1
        simp [setKey, findKey, hne]
      · by_cases h2 : k1 = k2
        · subst h2
          simp [setKey, findKey, h1]
        · simp [setKey, findKey, h1, h2, ih]

lemma findKey_removeKey_self {α : Type} (l : List (String × α)) (k : String) :
    findKey (removeKey l k) k = none := by
  induction l with
  | nil => rfl
  | cons p rest ih =>
      obtain ⟨k1, v1⟩ := p
      by_cases h : k1 = k
      · subst h
        simpa [removeKey] using ih
      · simpa [removeKey, h, findKey] using ih

lemma findKey_removeKey_ne {α : Type} (l : List (String × α)) (k k2 : String)
    (h : k2 ≠ k) : findKey (removeKey l k) k2 = findKey l k2 := by
  have hne : ¬(k = k2) := fun h2 => h h2.symm
  induction l with
  | nil => rfl
  | cons p rest ih =>
      obtain ⟨k1, v1⟩ := p
      by_cases h1 : k1 = k
      · subst h1
        simp [removeKey, findKey, hne, ih]
      · by_cases h2 : k1 = k2
        · subst h2
          simp [removeKey, h1, findKey, ih]
        · simp [removeKey, h1, h2, findKey, ih]

/-- Client-side conversation state: the `messages` list, the
`streamingResponses` record, the current round and the highlighted
coach. -/
structure ChatState where
  messages : List RoundtableMessage
  streaming : List (String × StreamingCoachResponse)
  currentRound : Nat
  currentCoachId : Option String
deriving DecidableEq, Repr

def initialChatState : ChatState :=
  { messages := [], streaming := [], currentRound := 0, currentCoachId := none }

/-- `handleStreamEvent` (RoundtableChat.tsx lines 329-440), as a pure
state transition. -/
def handleStreamEvent (e : RoundtableEvent) (s : ChatState) : ChatState :=
  match e with
  | RoundtableEvent.round_start r => { s with currentRound := r }
  | RoundtableEvent.coach_start cid cname cavatar =>
      { s with
        currentCoachId := some cid
        streaming := setKey s.streaming cid
          { coach_id := some cid, coach_name := some cname,
            coach_avatar := some cavatar, content := "",
            isStreaming := some true, message_type := some MessageType.response } }
  | RoundtableEvent.moderator_start cid cname cavatar mt =>
      { s with
        currentCoachId := some cid
        streaming := setKey s.streaming cid
          { coach_id := some cid, coach_name := some cname,
            coach_avatar := some cavatar, content := "",
            isStreaming := some true, message_type := some mt } }
  | RoundtableEvent.content cid t =>
      let entry : StreamingCoachResponse :=
        match findKey s.streaming cid with
        | some r => { r with content := r.content ++ t }
        | none =>
            { coach_id := none, coach_name := none, coach_avatar := none,
              content := t, isStreaming := none, message_type := none }
      { s with streaming := setKey s.streaming cid entry }
  | RoundtableEvent.coach_end cid =>
      let s2 : ChatState :=
        match findKey s.streaming cid with
        | some r =>
            { s with messages := s.messages ++
                [{ coach_id := some cid, role := Role.assistant,
                   content := r.content,
                   message_type := r.message_type.getD MessageType.response,
                   turn_number := some s.currentRound }] }
        | none => s
      { s2 with streaming := removeKey s2.streaming cid, currentCoachId := none }
  | RoundtableEvent.moderator_end cid mt =>
      let s2 : ChatState :=
        match findKey s.streaming cid with
        | some r =>
            { s with messages := s.messages ++
                [{ coach_id := some cid, role := Role.assistant,
                   content := r.content, message_type := mt,
                   turn_number := some s.currentRound }] }
        | none => s
      { s2 with streaming := removeKey s2.streaming cid, currentCoachId := none }
  | RoundtableEvent.round_end _ => s
  | RoundtableEvent.done => s
  | RoundtableEvent.error _ _ => s

/-- The `for await` loop of `handleSend`: process a list of received
events in order. -/
def processEvents (evs : List RoundtableEvent) (s : ChatState) : ChatState :=
  evs.foldl (fun st e => handleStreamEvent e st) s

/-- Order-sensitive concatenation of text fragments. -/
def concatAll (l : List String) : String :=
  l.foldr (fun a b => a ++ b) ""

lemma concatAll_nil : concatAll [] = "" := rfl

lemma concatAll_cons (a : String) (l : List String) :
    concatAll (a :: l) = a ++ concatAll l := rfl

lemma string_append_empty (s : String) : s ++ "" = s := by
  cases s
  show String.mk _ = String.mk _
  simp [String.append]

lemma string_empty_append (s : String) : "" ++ s = s := by
  cases s
  rfl

lemma string_append_assoc (a b c : String) : a ++ b ++ c = a ++ (b ++ c) := by
  cases a
  cases b
  cases c
  show String.mk _ = String.mk _
  simp [String.append]

lemma concatAll_append (l1 l2 : List String) :
    concatAll (l1 ++ l2) = concatAll l1 ++ concatAll l2 := by
  induction l1 with
  | nil => simp [concatAll_nil, string_empty_append]
  | cons a rest ih =>
      simp only [List.cons_append, concatAll_cons, ih, string_append_assoc]

/-- The content fragments addressed to coach `c`, in arrival order. -/
def fragmentsFor (c : String) (evs : List RoundtableEvent) : List String :=
  evs.filterMap (fun e =>
    match e with
    | RoundtableEvent.content cid t => if cid = c then some t else none
    | _ => none)

/-- Events that begin or finish the turn of coach `c` (they reset or
drop the coach's streaming entry). -/
def startsOrEndsTurn (c : String) : RoundtableEvent → Bool
  | RoundtableEvent.coach_start cid _ _ => cid = c
  | RoundtableEvent.moderator_start cid _ _ _ => cid = c
  | RoundtableEvent.coach_end cid => cid = c
  | RoundtableEvent.moderator_end cid _ => cid = c
  | _ => false

/-- Events that begin a turn of coach `c`. -/
def startsTurn (c : String) : RoundtableEvent → Bool
  | RoundtableEvent.coach_start cid _ _ => cid = c
  | RoundtableEvent.moderator_start cid _ _ _ => cid = c
  | _ => false

/-- The text of coach `c` visible to the user: the contents of `c`'s
committed messages (rendered from `messages`) followed by `c`'s in-flight
streaming card (rendered from `streamingResponses`), in render order. -/
def visibleFor (c : String) (s : ChatState) : String :=
  concatAll ((s.messages.filter (fun m => m.coach_id = some c)).map
    (fun m => m.content)) ++
  (match findKey s.streaming c with
   | some r => r.content
   | none => "")

/-! ## The `handleSend` lifecycle (RoundtableChat.tsx lines 235-327) -/

/-- Component props that `handleSend` reads and can never write (React
props of `RoundtableChat`): the session reference and the session-default
configuration bundles. -/
structure SessionProps where
  sessionId : Option String
  mode : DiscussionMode
  modelConfig : ModelConfig
  kb : KbSettings
deriving DecidableEq, Repr

/-- The per-message override portion of the component state. -/
structure OverrideState where
  overrideEnabled : Bool
  overrideModel : ModelConfig
  overrideKb : KbSettings
deriving DecidableEq, Repr

/-- TS `value.trim()`: strip leading and trailing whitespace.  (Embedded
over the character list; `String.trim` itself does not reduce in the
kernel.) -/
def trimString (s : String) : String :=
  String.mk (((s.data.dropWhile Char.isWhitespace).reverse.dropWhile
    Char.isWhitespace).reverse)

def invalidSessionText : String := "错误：会话 ID 无效，请刷新页面重试。"

def defaultErrorText : String := "发生错误，请稍后重试。"

def userMessageOf (content : String) : RoundtableMessage :=
  { coach_id := none, role := Role.user, content := content,
    message_type := MessageType.response, turn_number := none }

def errorMessageOf (content : String) : RoundtableMessage :=
  { coach_id := none, role := Role.assistant, content := content,
    message_type := MessageType.response, turn_number := none }

/-- `handleSend` as a state transition.  `evs` are the stream events
received before the stream ended; `streamError = some m` models the
stream throwing with message `m` (the empty string standing for a null
message) after those events, in which case the catch block appends an
error message.  The finally block always clears the streaming record,
the current coach and the override flag.  Returns the request actually
sent (`none` on the guard paths that return early) together with the
override and chat state after the call. -/
def handleSend (props : SessionProps) (ov : OverrideState) (chat : ChatState)
    (isLoading : Bool) (value : String) (maxRounds : Nat)
    (debateStyle : DebateStyle) (apiAttachments : List String)
    (evs : List RoundtableEvent) (streamError : Option String) :
    Option ChatRequest × OverrideState × ChatState :=
  if trimString value = "" ∨ isLoading then (none, ov, chat)
  else
    match props.sessionId with
    | none =>
        (none, ov,
          { chat with messages := chat.messages ++ [errorMessageOf invalidSessionText] })
    | some sid =>
        let userContent := trimString value
        let chat1 := { chat with streaming := [] }
        let chat2 :=
          { chat1 with messages := chat1.messages ++ [userMessageOf userContent] }
        let req := buildChatRequest sid props.mode userContent apiAttachments
          maxRounds debateStyle ov.overrideEnabled props.modelConfig
          ov.overrideModel props.kb ov.overrideKb
        let chat3 := processEvents evs chat2
        let chat4 : ChatState :=
          match streamError with
          | some m =>
              { chat3 with messages := chat3.messages ++
                  [errorMessageOf (if m = "" then defaultErrorText else m)] }
          | none => chat3
        let chatF := { chat4 with streaming := [], currentCoachId := none }
        (some req, { ov with overrideEnabled := false }, chatF)

/-! ## Spec-modelled server orchestrator

The Round Orchestrator, Coach Turn Executor, Knowledge Injection Policy
and Moderator Synthesizer run in the API server, whose source is not in
the repository slice; every definition in this section is modelled from
the spec (sections 4.1, 4.3, 4.4, 6, 7 and 8). -/

/-- Modelled from the spec: the outbound event kinds of the streaming
protocol (spec section 6), without the cosmetic `coach_name` /
`coach_avatar` payload fields. -/
inductive SEvent
  | round_start (round : Nat)
  | coach_start (coach_id : String)
  | content (coach_id : String) (text : String)
  | coach_end (coach_id : String)
  | moderator_start (coach_id : String) (message_type : MessageType)
  | moderator_end (coach_id : String) (message_type : MessageType)
  | round_end (round : Nat)
  | done
  | error (coach_id : Option String) (text : String)
deriving DecidableEq, Repr

/-- Modelled from the spec: the prompt payload the Context Assembler
hands to the Generation Capability, restricted to the fields the claims
mention; history and knowledge snippets are opaque to every claim and
are omitted. -/
structure Prompt where
  participant : String
  roundNo : Nat
  personaInstructions : String
deriving DecidableEq, Repr

/-- Modelled from the spec: debate style selects the persona
instructions (convergent critique vs adversarial framing). -/
def debateInstructions : DebateStyle → String
  | DebateStyle.converge => "convergent critique"
  | DebateStyle.clash => "adversarial framing"

/-- Modelled from the spec: deterministic prompt assembly for one turn. -/
def assembleTurnPrompt (style : DebateStyle) (c : String) (r : Nat) : Prompt :=
  { participant := c, roundNo := r, personaInstructions := debateInstructions style }

/-- Modelled from the spec: one observable step of the orchestration — a
call into the Knowledge Capability, a call into the Generation
Capability, or an outbound protocol event. -/
inductive Action
  | kbFetch
  | genRequest (p : Prompt)
  | ev (e : SEvent)
deriving DecidableEq, Repr

def failMsg : String := "turn failed"

def allFailedMsg : String := "all participants failed"

def moderatorFailedMsg : String := "moderator failed"

/-- Modelled from the spec (section 4.4, Coach Turn Executor): open the
generation connection, emit the turn-start event, forward each fragment
as one content event, and emit the turn-end event; an unrecoverable
failure yields a turn-scoped error instead.  `gen c r` is the realized
fragment stream of participant `c` in round `r`; `fails c r` says whether
that turn fails unrecoverably. -/
def coachTurnActions (style : DebateStyle) (gen : String → Nat → List String)
    (fails : String → Nat → Bool) (c : String) (r : Nat) : List Action :=
  Action.genRequest (assembleTurnPrompt style c r) ::
    (if fails c r then
      [Action.ev (SEvent.coach_start c), Action.ev (SEvent.error (some c) failMsg)]
    else
      Action.ev (SEvent.coach_start c) ::
        (gen c r).map (fun t => Action.ev (SEvent.content c t)) ++
        [Action.ev (SEvent.coach_end c)])

/-- Modelled from the spec (section 4.3): with `coach` timing the
Knowledge Capability is consulted independently immediately before every
coach turn. -/
def coachPhase (timing : KbTiming) (style : DebateStyle)
    (gen : String → Nat → List String) (fails : String → Nat → Bool)
    (c : String) (r : Nat) : List Action :=
  (if timing = KbTiming.coach then [Action.kbFetch] else []) ++
    coachTurnActions style gen fails c r

/-- Modelled from the spec (section 4.1): the participants of `active`
whose turn in round `r` did not fail; they form the roster of the
following round. -/
def survivorsOf (fails : String → Nat → Bool) (active : List String)
    (r : Nat) : List String :=
  active.filter (fun c => !(fails c r))

/-- Modelled from the spec: one coach round — an optional per-round
knowledge fetch, the round-start event, then every active participant's
turn in roster order. -/
def roundActions (timing : KbTiming) (style : DebateStyle)
    (gen : String → Nat → List String) (fails : String → Nat → Bool)
    (r : Nat) (active : List String) : List Action :=
  (if timing = KbTiming.round then [Action.kbFetch] else []) ++
    Action.ev (SEvent.round_start r) ::
      active.flatMap (fun c => coachPhase timing style gen fails c r)

/-- Modelled from the spec (sections 4.1 and 7): free-mode round loop.
`r` is the 1-based number of the next round, `rem` the remaining round
budget.  After each round, failed participants are excluded; if every
participant of the active round failed the exchange terminates with an
unscoped error, otherwise the round is closed and the loop continues;
when the budget is exhausted the exchange emits `done`. -/
def runFree (timing : KbTiming) (style : DebateStyle)
    (gen : String → Nat → List String) (fails : String → Nat → Bool) :
    Nat → Nat → List String → List Action
  | _, 0, _ => [Action.ev SEvent.done]
  | r, rem + 1, active =>
      roundActions timing style gen fails r active ++
      (if (survivorsOf fails active r).isEmpty then
        [Action.ev (SEvent.error none allFailedMsg)]
      else
        Action.ev (SEvent.round_end r) ::
          runFree timing style gen fails (r + 1) rem (survivorsOf fails active r))

/-- Modelled from the spec (sections 4.3 and 4.5): the moderator phase —
an optional moderator-timed knowledge fetch, then a single synthesizer
turn tagged with a message kind; a moderator failure is fatal to the
exchange (the moderator is the only participant of its phase). -/
def moderatorTurn (timing : KbTiming) (style : DebateStyle) (m : String)
    (mFrags : List String) (mFails : Bool) (mt : MessageType) : List Action :=
  (if timing = KbTiming.moderator then [Action.kbFetch] else []) ++
    Action.genRequest (assembleTurnPrompt style m 1) ::
      (if mFails then
        [Action.ev (SEvent.moderator_start m mt),
         Action.ev (SEvent.error (some m) failMsg),
         Action.ev (SEvent.error none moderatorFailedMsg)]
      else
        Action.ev (SEvent.moderator_start m mt) ::
          mFrags.map (fun t => Action.ev (SEvent.content m t)) ++
          [Action.ev (SEvent.moderator_end m mt), Action.ev SEvent.done])

/-- Modelled from the spec (section 4.1): moderated mode runs exactly one
coach round and then the moderator phase. -/
def runModerated (timing : KbTiming) (style : DebateStyle)
    (gen : String → Nat → List String) (fails : String → Nat → Bool)
    (roster : List String) (m : String) (mFrags : List String)
    (mFails : Bool) (mt : MessageType) : List Action :=
  roundActions timing style gen fails 1 roster ++
  (if (survivorsOf fails roster 1).isEmpty then
    [Action.ev (SEvent.error none allFailedMsg)]
  else
    Action.ev (SEvent.round_end 1) ::
      moderatorTurn timing style m mFrags mFails mt)

/-- Modelled from the spec: the exchange configuration the orchestrator
receives. -/
structure OrchConfig where
  mode : DiscussionMode
  roster : List String
  moderator : Option String
  maxRounds : Nat
  debateStyle : DebateStyle
  kbTiming : KbTiming
deriving DecidableEq, Repr

/-- Modelled from the spec (sections 4.1 and 7): the whole exchange.
Configuration errors (empty roster; moderated mode without a moderator)
are a synchronous failure before any event; `message` timing fetches
knowledge once up front; then the mode-specific loop runs. -/
def runExchange (cfg : OrchConfig) (gen : String → Nat → List String)
    (fails : String → Nat → Bool) (mFrags : List String) (mFails : Bool)
    (mt : MessageType) : Except String (List Action) :=
  if cfg.roster.isEmpty then Except.error "empty roster"
  else
    let prefetch := if cfg.kbTiming = KbTiming.message then [Action.kbFetch] else []
    match cfg.mode with
    | DiscussionMode.moderated =>
        match cfg.moderator with
        | none => Except.error "moderated mode requires a moderator"
        | some m =>
            Except.ok (prefetch ++
              runModerated cfg.kbTiming cfg.debateStyle gen fails cfg.roster m
                mFrags mFails mt)
    | DiscussionMode.free =>
        Except.ok (prefetch ++
          runFree cfg.kbTiming cfg.debateStyle gen fails 1 cfg.maxRounds cfg.roster)

def actionEvent : Action → Option SEvent
  | Action.ev e => some e
  | _ => none

/-- The outbound event stream of a trace: the protocol events, with the
capability calls projected away. -/
def eventsOf (tr : List Action) : List SEvent :=
  tr.filterMap actionEvent

/-- The events a successful coach turn contributes (the failure branch
contributes start then a scoped error instead). -/
def coachTurnEvents (gen : String → Nat → List String)
    (fails : String → Nat → Bool) (c : String) (r : Nat) : List SEvent :=
  if fails c r then
    [SEvent.coach_start c, SEvent.error (some c) failMsg]
  else
    SEvent.coach_start c :: (gen c r).map (SEvent.content c) ++
      [SEvent.coach_end c]

/-- Whether an event belongs to a coach turn (start, content or end). -/
def isCoachTurnEvent : SEvent → Bool
  | SEvent.coach_start _ => true
  | SEvent.content _ _ => true
  | SEvent.coach_end _ => true
  | _ => false

/-- Modelled from the spec: the roster active `s` rounds after round
`base`, obtained by repeatedly excluding the participants that failed. -/
def activeAt (fails : String → Nat → Bool) (base : Nat) (roster : List String) :
    Nat → List String
  | 0 => roster
  | s + 1 => survivorsOf fails (activeAt fails base roster s) (base + s)

def isKbFetch : Action → Bool
  | Action.kbFetch => true
  | _ => false

/-- How many times a trace calls the Knowledge Capability. -/
def kbCallCount (tr : List Action) : Nat :=
  tr.countP isKbFetch

/-- Adjacency discipline for knowledge fetches: whenever a fetch occurs,
the very next step of the trace is the generation request of a turn (the
fetch happens immediately before that turn). -/
def fetchAdjacent (a b : Action) : Prop :=
  a = Action.kbFetch → ∃ p, b = Action.genRequest p

/-- The number of coach rounds an exchange runs: the round budget in free
mode, exactly one in moderated mode. -/
def roundBudget (cfg : OrchConfig) : Nat :=
  match cfg.mode with
  | DiscussionMode.free => cfg.maxRounds
  | DiscussionMode.moderated => 1

/-- A concrete model-parameter bundle used by concrete instantiations. -/
def sampleModelConfig : ModelConfig :=
  { configId := some "cfg1", provider := "openai", model := "gpt-4o",
    temperature := (7 : Rat) / 10, maxTokens := 1024 }

/-- A second concrete bundle, distinct from `sampleModelConfig`. -/
def sampleOverrideModelConfig : ModelConfig :=
  { configId := some "cfg2", provider := "anthropic", model := "other",
    temperature := (1 : Rat) / 5, maxTokens := 2048 }

def sampleKb : KbSettings :=
  { timing := KbTiming.off, topK := 5, maxCandidates := 200 }

def sampleOverrideKb : KbSettings :=
  { timing := KbTiming.coach, topK := 8, maxCandidates := 400 }

def sampleProps : SessionProps :=
  { sessionId := some "s1", mode := DiscussionMode.free,
    modelConfig := sampleModelConfig, kb := sampleKb }

def sampleOverrideOn : OverrideState :=
  { overrideEnabled := true, overrideModel := sampleOverrideModelConfig,
    overrideKb := sampleOverrideKb }

/-! ## Helper lemmas and claim theorems -/

lemma processEvents_cons (e : RoundtableEvent) (rest : List RoundtableEvent)
    (s : ChatState) :
    processEvents (e :: rest) s = processEvents rest (handleStreamEvent e s) := rfl

/-- While no start or end event for coach `c` arrives, the streaming
entry of `c` accumulates exactly the content fragments addressed to `c`,
in order. -/
lemma findKey_processEvents_accum (c : String) (evs : List RoundtableEvent)
    (s : ChatState) (r : StreamingCoachResponse)
    (hr : findKey s.streaming c = some r)
    (h : ∀ e ∈ evs, startsOrEndsTurn c e = false) :
    findKey (processEvents evs s).streaming c
      = some { r with content := r.content ++ concatAll (fragmentsFor c evs) } := by
  induction evs generalizing s r with
  | nil =>
      simp [processEvents, fragmentsFor, concatAll_nil, string_append_empty, hr]
  | cons e rest ih =>
      have he := h e (List.mem_cons_self _ _)
      have hrest : ∀ e2 ∈ rest, startsOrEndsTurn c e2 = false :=
        fun e2 h2 => h e2 (List.mem_cons_of_mem _ h2)
      rw [processEvents_cons]
      cases e with
      | round_start r2 =>
          rw [ih (handleStreamEvent (RoundtableEvent.round_start r2) s) r hr hrest]
          simp [fragmentsFor]
      | coach_start cid cn ca =>
          have hne : ¬(cid = c) := by simpa [startsOrEndsTurn] using he
          have hkeep : findKey
              (handleStreamEvent (RoundtableEvent.coach_start cid cn ca) s).streaming c
              = some r := by
            simpa [handleStreamEvent,
              findKey_setKey_ne _ _ _ _ (fun h2 : c = cid => hne h2.symm)] using hr
          rw [ih _ r hkeep hrest]
          simp [fragmentsFor]
      | moderator_start cid cn ca mt =>
          have hne : ¬(cid = c) := by simpa [startsOrEndsTurn] using he
          have hkeep : findKey
              (handleStreamEvent (RoundtableEvent.moderator_start cid cn ca mt) s).streaming c
              = some r := by
            simpa [handleStreamEvent,
              findKey_setKey_ne _ _ _ _ (fun h2 : c = cid => hne h2.symm)] using hr
          rw [ih _ r hkeep hrest]
          simp [fragmentsFor]
      | content cid t =>
          by_cases hc : cid = c
          · subst hc
            have hkeep : findKey
                (handleStreamEvent (RoundtableEvent.content cid t) s).streaming cid
                = some { r with content := r.content ++ t } := by
              simp [handleStreamEvent, hr, findKey_setKey_self]
            rw [ih _ _ hkeep hrest]
            simp [fragmentsFor, concatAll_cons, string_append_assoc]
          · have hkeep : findKey
                (handleStreamEvent (RoundtableEvent.content cid t) s).streaming c
                = some r := by
              simpa [handleStreamEvent,
                findKey_setKey_ne _ _ _ _ (fun h2 : c = cid => hc h2.symm)] using hr
            rw [ih _ r hkeep hrest]
            simp [fragmentsFor, hc]
      | coach_end cid =>
          have hne : ¬(cid = c) := by simpa [startsOrEndsTurn] using he
          have hkeep : findKey
              (handleStreamEvent (RoundtableEvent.coach_end cid) s).streaming c
              = some r := by
            cases hfind : findKey s.streaming cid <;>
              simpa [handleStreamEvent, hfind,
                findKey_removeKey_ne _ _ _ (fun h2 : c = cid => hne h2.symm)] using hr
          rw [ih _ r hkeep hrest]
          simp [fragmentsFor]
      | moderator_end cid mt =>
          have hne : ¬(cid = c) := by simpa [startsOrEndsTurn] using he
          have hkeep : findKey
              (handleStreamEvent (RoundtableEvent.moderator_end cid mt) s).streaming c
              = some r := by
            cases hfind : findKey s.streaming cid <;>
              simpa [handleStreamEvent, hfind,
                findKey_removeKey_ne _ _ _ (fun h2 : c = cid => hne h2.symm)] using hr
          rw [ih _ r hkeep hrest]
          simp [fragmentsFor]
      | round_end r2 =>
          rw [ih (handleStreamEvent (RoundtableEvent.round_end r2) s) r hr hrest]
          simp [fragmentsFor]
      | done =>
          rw [ih (handleStreamEvent RoundtableEvent.done s) r hr hrest]
          simp [fragmentsFor]
      | error cid msg2 =>
          rw [ih (handleStreamEvent (RoundtableEvent.error cid msg2) s) r hr hrest]
          simp [fragmentsFor]

/-- **C2.** The message recorded when a turn-end event is processed
carries exactly the in-order concatenation of the content fragments
received for that participant since its start event — for coach turns
and moderator turns alike. -/
theorem turn_message_is_fragment_concat (s : ChatState) (c cn ca : String)
    (mt mt2 : MessageType) (evs : List RoundtableEvent)
    (h : ∀ e ∈ evs, startsOrEndsTurn c e = false) :
    ((handleStreamEvent (RoundtableEvent.coach_end c)
        (processEvents evs (handleStreamEvent (RoundtableEvent.coach_start c cn ca) s))).messages
      = (processEvents evs (handleStreamEvent (RoundtableEvent.coach_start c cn ca) s)).messages ++
        [{ coach_id := some c, role := Role.assistant,
           content := concatAll (fragmentsFor c evs),
           message_type := MessageType.response,
           turn_number := some (processEvents evs
             (handleStreamEvent (RoundtableEvent.coach_start c cn ca) s)).currentRound }])
    ∧ ((handleStreamEvent (RoundtableEvent.moderator_end c mt2)
        (processEvents evs (handleStreamEvent (RoundtableEvent.moderator_start c cn ca mt) s))).messages
      = (processEvents evs (handleStreamEvent (RoundtableEvent.moderator_start c cn ca mt) s)).messages ++
        [{ coach_id := some c, role := Role.assistant,
           content := concatAll (fragmentsFor c evs),
           message_type := mt2,
           turn_number := some (processEvents evs
             (handleStreamEvent (RoundtableEvent.moderator_start c cn ca mt) s)).currentRound }]) := by
  constructor
  · have hstart : findKey
        (handleStreamEvent (RoundtableEvent.coach_start c cn ca) s).streaming c
        = some { coach_id := some c, coach_name := some cn, coach_avatar := some ca,
                 content := "", isStreaming := some true,
                 message_type := some MessageType.response } := by
      simp [handleStreamEvent, findKey_setKey_self]
    have hacc := findKey_processEvents_accum c evs _ _ hstart h
    revert hacc
    generalize processEvents evs
      (handleStreamEvent (RoundtableEvent.coach_start c cn ca) s) = s1
    intro hacc
    simp [handleStreamEvent, hacc, string_empty_append]
  · have hstart : findKey
        (handleStreamEvent (RoundtableEvent.moderator_start c cn ca mt) s).streaming c
        = some { coach_id := some c, coach_name := some cn, coach_avatar := some ca,
                 content := "", isStreaming := some true,
                 message_type := some mt } := by
      simp [handleStreamEvent, findKey_setKey_self]
    have hacc := findKey_processEvents_accum c evs _ _ hstart h
    revert hacc
    generalize processEvents evs
      (handleStreamEvent (RoundtableEvent.moderator_start c cn ca mt) s) = s1
    intro hacc
    simp [handleStreamEvent, hacc, string_empty_append]

/-- Witness for C2: a concrete turn for coach `A` interleaved with
fragments for another coach and a round change. -/
theorem turn_message_is_fragment_concat_witness :
    (handleStreamEvent (RoundtableEvent.coach_end "A")
        (processEvents
          [RoundtableEvent.content "A" "he",
           RoundtableEvent.round_start 2,
           RoundtableEvent.content "B" "zzz",
           RoundtableEvent.content "A" "llo"]
          (handleStreamEvent (RoundtableEvent.coach_start "A" "Alice" "ava")
            initialChatState))).messages
      = [{ coach_id := some "A", role := Role.assistant, content := "hello",
           message_type := MessageType.response, turn_number := some 2 }] := by
  have h := (turn_message_is_fragment_concat initialChatState "A" "Alice" "ava"
    MessageType.summary MessageType.summary
    [RoundtableEvent.content "A" "he",
     RoundtableEvent.round_start 2,
     RoundtableEvent.content "B" "zzz",
     RoundtableEvent.content "A" "llo"] (by decide)).1
  rw [h]
  decide

/-- **C9.** An end event whose coach has no in-flight streaming entry
appends no message, and after any end event the coach's streaming entry
is absent. -/
theorem end_event_without_entry (s s2 : ChatState) (c : String) (mt : MessageType)
    (h : findKey s.streaming c = none) :
    (handleStreamEvent (RoundtableEvent.coach_end c) s).messages = s.messages
    ∧ (handleStreamEvent (RoundtableEvent.moderator_end c mt) s).messages = s.messages
    ∧ findKey (handleStreamEvent (RoundtableEvent.coach_end c) s2).streaming c = none
    ∧ findKey (handleStreamEvent (RoundtableEvent.moderator_end c mt) s2).streaming c = none := by
  refine ⟨?_, ?_, ?_, ?_⟩
  · simp [handleStreamEvent, h]
  · simp [handleStreamEvent, h]
  · cases hf : findKey s2.streaming c <;>
      simp [handleStreamEvent, hf, findKey_removeKey_self]
  · cases hf : findKey s2.streaming c <;>
      simp [handleStreamEvent, hf, findKey_removeKey_self]

/-- Witness for C9 at a concrete state holding an unrelated in-flight
entry for coach `B`. -/
theorem end_event_without_entry_witness :
    (handleStreamEvent (RoundtableEvent.coach_end "A")
      { initialChatState with streaming :=
          [("B", { coach_id := some "B", coach_name := some "Bob",
                   coach_avatar := some "av", content := "hi",
                   isStreaming := some true,
                   message_type := some MessageType.response })] }).messages = []
    ∧ findKey (handleStreamEvent (RoundtableEvent.coach_end "A")
        { initialChatState with streaming :=
            [("A", { coach_id := some "A", coach_name := some "Ann",
                     coach_avatar := some "av", content := "yo",
                     isStreaming := some true,
                     message_type := some MessageType.response })] }).streaming "A" = none := by
  have h := end_event_without_entry
    { initialChatState with streaming :=
        [("B", { coach_id := some "B", coach_name := some "Bob",
                 coach_avatar := some "av", content := "hi",
                 isStreaming := some true,
                 message_type := some MessageType.response })] }
    { initialChatState with streaming :=
        [("A", { coach_id := some "A", coach_name := some "Ann",
                 coach_avatar := some "av", content := "yo",
                 isStreaming := some true,
                 message_type := some MessageType.response })] }
    "A" MessageType.response (by decide)
  exact ⟨h.1, h.2.2.1⟩

lemma handleToggle_length_le (maxCount : Nat) (sel : List String) (c : String)
    (h : sel.length ≤ maxCount) : (handleToggle maxCount sel c).length ≤ maxCount := by
  unfold handleToggle
  split
  · exact le_trans (List.length_filter_le _ _) h
  · split
    · simpa using by omega
    · exact h

lemma foldl_handleToggle_length_le (maxCount : Nat) (ops : List String)
    (sel : List String) (h : sel.length ≤ maxCount) :
    (ops.foldl (handleToggle maxCount) sel).length ≤ maxCount := by
  induction ops generalizing sel with
  | nil => exact h
  | cons op rest ih =>
      exact ih _ (handleToggle_length_le maxCount sel op h)

/-- **C10.** The roster selector preserves the upper bound under every
sequence of toggles; toggling a selected coach removes it; toggling an
unselected coach adds it exactly when the selection is strictly below
`maxCount`; and validity is reported exactly when the size lies between
`minCount` and `maxCount` inclusive. -/
theorem coach_selector_invariant (minCount maxCount : Nat) (sel : List String)
    (c : String) (ops : List String) :
    (sel.length ≤ maxCount →
      (ops.foldl (handleToggle maxCount) sel).length ≤ maxCount)
    ∧ (c ∈ sel → c ∉ handleToggle maxCount sel c)
    ∧ (c ∉ sel → sel.length < maxCount →
        handleToggle maxCount sel c = sel ++ [c])
    ∧ (c ∉ sel → maxCount ≤ sel.length → handleToggle maxCount sel c = sel)
    ∧ (isValidSelection minCount maxCount sel = true ↔
        (minCount ≤ sel.length ∧ sel.length ≤ maxCount)) := by
  refine ⟨fun h => foldl_handleToggle_length_le maxCount ops sel h, ?_, ?_, ?_, ?_⟩
  · intro hmem hmem2
    unfold handleToggle at hmem2
    rw [if_pos hmem] at hmem2
    have := List.of_mem_filter hmem2
    simp at this
  · intro hmem hlt
    unfold handleToggle
    rw [if_neg hmem, if_pos hlt]
  · intro hmem hge
    unfold handleToggle
    rw [if_neg hmem, if_neg (by omega)]
  · simp [isValidSelection]

/-- Witness for C10 at the component defaults (`minCount = 2`,
`maxCount = 5`). -/
theorem coach_selector_invariant_witness :
    ((["b", "a", "c", "d", "e", "f", "a"].foldl (handleToggle 5) ["a", "b"]).length ≤ 5)
    ∧ "a" ∉ handleToggle 5 ["a", "b"] "a"
    ∧ handleToggle 5 ["a", "b"] "c" = ["a", "b", "c"]
    ∧ isValidSelection 2 5 ["a", "b"] = true := by
  have h := coach_selector_invariant 2 5 ["a", "b"] "a" ["b", "a", "c", "d", "e", "f", "a"]
  have h2 := coach_selector_invariant 2 5 ["a", "b"] "c" []
  refine ⟨h.1 (by decide), h.2.1 (by decide), ?_, ?_⟩
  · have := h2.2.2.1 (by decide) (by decide)
    simpa using this
  · exact h.2.2.2.2.mpr (by decide)

/-- **C1.** The request built by `handleSend` is identical to the one
built by first making the single tagged choice (session defaults vs the
full override bundle) and then drawing every model-parameter and
knowledge field from the chosen bundle: no field-by-field merge ever
occurs. -/
theorem override_all_or_nothing (sessionId : String) (mode : DiscussionMode)
    (userContent : String) (apiAttachments : List String) (maxRounds : Nat)
    (debateStyle : DebateStyle) (overrideEnabled : Bool)
    (modelConfig overrideModelConfig : ModelConfig) (kb overrideKb : KbSettings) :
    buildChatRequest sessionId mode userContent apiAttachments maxRounds
      debateStyle overrideEnabled modelConfig overrideModelConfig kb overrideKb
    = buildChatRequestTagged sessionId mode userContent apiAttachments maxRounds
      debateStyle overrideEnabled modelConfig overrideModelConfig kb overrideKb := by
  cases overrideEnabled <;> rfl

/-- **C5 (amended).** While the exchange is running, processing any
stream event that is not a start event for coach `c` never retracts
`c`'s visible text (it only extends it, or moves it from the in-flight
card into the committed message list); but when `handleSend` finishes —
on success or error alike — the cleanup keeps only the committed
messages, dropping any in-flight streaming content not finalized by an
end event. -/
theorem visible_content_monotone_until_cleanup (s : ChatState) (c : String)
    (e : RoundtableEvent) (h : startsTurn c e = false) :
    (∃ t, visibleFor c (handleStreamEvent e s) = visibleFor c s ++ t)
    ∧ visibleFor c { s with streaming := [], currentCoachId := none }
      = concatAll ((s.messages.filter (fun m => m.coach_id = some c)).map
          (fun m => m.content)) := by
  constructor
  · cases e with
    | round_start r2 => exact ⟨"", (string_append_empty _).symm⟩
    | round_end r2 => exact ⟨"", (string_append_empty _).symm⟩
    | done => exact ⟨"", (string_append_empty _).symm⟩
    | error cid msg2 => exact ⟨"", (string_append_empty _).symm⟩
    | coach_start cid cn ca =>
        have hne : ¬(cid = c) := by simpa [startsTurn] using h
        have hkeep := fun (v : StreamingCoachResponse) =>
          findKey_setKey_ne s.streaming cid c v (fun h2 : c = cid => hne h2.symm)
        refine ⟨"", ?_⟩
        rw [string_append_empty]
        simp [visibleFor, handleStreamEvent, hkeep]
    | moderator_start cid cn ca mt =>
        have hne : ¬(cid = c) := by simpa [startsTurn] using h
        have hkeep := fun (v : StreamingCoachResponse) =>
          findKey_setKey_ne s.streaming cid c v (fun h2 : c = cid => hne h2.symm)
        refine ⟨"", ?_⟩
        rw [string_append_empty]
        simp [visibleFor, handleStreamEvent, hkeep]
    | content cid t =>
        by_cases hc : cid = c
        · subst hc
          cases hf : findKey s.streaming cid with
          | some r =>
              refine ⟨t, ?_⟩
              simp [visibleFor, handleStreamEvent, hf, findKey_setKey_self,
                string_append_assoc]
          | none =>
              refine ⟨t, ?_⟩
              simp [visibleFor, handleStreamEvent, hf, findKey_setKey_self,
                string_append_empty]
        · have hkeep := fun (v : StreamingCoachResponse) =>
            findKey_setKey_ne s.streaming cid c v (fun h2 : c = cid => hc h2.symm)
          refine ⟨"", ?_⟩
          rw [string_append_empty]
          simp [visibleFor, handleStreamEvent, hkeep]
    | coach_end cid =>
        by_cases hc : cid = c
        · subst hc
          cases hf : findKey s.streaming cid with
          | some r =>
              refine ⟨"", ?_⟩
              rw [string_append_empty]
              simp [visibleFor, handleStreamEvent, hf, findKey_removeKey_self,
                List.filter_append, List.map_append, concatAll_append,
                concatAll_cons, concatAll_nil, string_append_empty]
          | none =>
              refine ⟨"", ?_⟩
              rw [string_append_empty]
              simp [visibleFor, handleStreamEvent, hf, findKey_removeKey_self]
        · have hkeep := findKey_removeKey_ne s.streaming cid c
            (fun h2 : c = cid => hc h2.symm)
          cases hf : findKey s.streaming cid with
          | some r =>
              refine ⟨"", ?_⟩
              rw [string_append_empty]
              simp [visibleFor, handleStreamEvent, hf, hkeep, hc,
                List.filter_append, List.map_append, concatAll_append,
                concatAll_cons, concatAll_nil, string_append_empty]
          | none =>
              refine ⟨"", ?_⟩
              rw [string_append_empty]
              simp [visibleFor, handleStreamEvent, hf, hkeep]
    | moderator_end cid mt =>
        by_cases hc : cid = c
        · subst hc
          cases hf : findKey s.streaming cid with
          | some r =>
              refine ⟨"", ?_⟩
              rw [string_append_empty]
              simp [visibleFor, handleStreamEvent, hf, findKey_removeKey_self,
                List.filter_append, List.map_append, concatAll_append,
                concatAll_cons, concatAll_nil, string_append_empty]
          | none =>
              refine ⟨"", ?_⟩
              rw [string_append_empty]
              simp [visibleFor, handleStreamEvent, hf, findKey_removeKey_self]
        · have hkeep := findKey_removeKey_ne s.streaming cid c
            (fun h2 : c = cid => hc h2.symm)
          cases hf : findKey s.streaming cid with
          | some r =>
              refine ⟨"", ?_⟩
              rw [string_append_empty]
              simp [visibleFor, handleStreamEvent, hf, hkeep, hc,
                List.filter_append, List.map_append, concatAll_append,
                concatAll_cons, concatAll_nil, string_append_empty]
          | none =>
              refine ⟨"", ?_⟩
              rw [string_append_empty]
              simp [visibleFor, handleStreamEvent, hf, hkeep]
  · simp [visibleFor, findKey, string_append_empty]

/-- Witness for the amended C5: a concrete content event extends the
visible text of coach `A`, and the cleanup of a concrete state keeps
exactly the committed messages. -/
theorem visible_content_monotone_witness :
    (∃ t, visibleFor "A"
        (handleStreamEvent (RoundtableEvent.content "A" "more")
          (handleStreamEvent (RoundtableEvent.coach_start "A" "Alice" "ava")
            initialChatState))
      = visibleFor "A"
          (handleStreamEvent (RoundtableEvent.coach_start "A" "Alice" "ava")
            initialChatState) ++ t) := by
  exact (visible_content_monotone_until_cleanup
    (handleStreamEvent (RoundtableEvent.coach_start "A" "Alice" "ava")
      initialChatState) "A" (RoundtableEvent.content "A" "more") (by decide)).1

/-- **C5 (counterexample).** A fragment already streamed and displayed
for coach `A` is retracted when the stream ends in an error before the
turn-end event: the in-flight card is cleared and its content reaches
neither the message list nor any other part of the visible state. -/
theorem partial_output_retracted_counterexample :
    visibleFor "A" (processEvents
        [RoundtableEvent.coach_start "A" "Alice" "ava",
         RoundtableEvent.content "A" "hello"]
        { initialChatState with messages := [userMessageOf "hi"] }) = "hello"
    ∧ (handleSend sampleProps sampleOverrideOn initialChatState false "hi" 1
        DebateStyle.converge []
        [RoundtableEvent.coach_start "A" "Alice" "ava",
         RoundtableEvent.content "A" "hello"]
        (some "boom")).2.2.streaming = []
    ∧ (handleSend sampleProps sampleOverrideOn initialChatState false "hi" 1
        DebateStyle.converge []
        [RoundtableEvent.coach_start "A" "Alice" "ava",
         RoundtableEvent.content "A" "hello"]
        (some "boom")).2.2.messages.map (fun m => m.content) = ["hi", "boom"]
    ∧ visibleFor "A" (handleSend sampleProps sampleOverrideOn initialChatState
        false "hi" 1 DebateStyle.converge []
        [RoundtableEvent.coach_start "A" "Alice" "ava",
         RoundtableEvent.content "A" "hello"]
        (some "boom")).2.2 = "" := by
  refine ⟨by decide, by decide, by decide, by decide⟩

/-- **C8.** When `handleSend` actually sends an exchange (the guard
paths do not return early), the override flag is cleared once the call
finishes — success and error alike — while the override bundles
themselves and the session-default props are untouched; therefore any
subsequent request built from the resulting state draws every
configuration field from the session-default bundles until a new
override is enabled. -/
theorem override_supersedes_once (props : SessionProps) (ov : OverrideState)
    (chat : ChatState) (value : String) (maxRounds : Nat) (style : DebateStyle)
    (atts : List String) (evs : List RoundtableEvent)
    (streamError : Option String) (sid : String)
    (hval : ¬(trimString value = "")) (hsid : props.sessionId = some sid) :
    (handleSend props ov chat false value maxRounds style atts evs
        streamError).1.isSome = true
    ∧ (handleSend props ov chat false value maxRounds style atts evs
        streamError).2.1.overrideEnabled = false
    ∧ (handleSend props ov chat false value maxRounds style atts evs
        streamError).2.1.overrideModel = ov.overrideModel
    ∧ (handleSend props ov chat false value maxRounds style atts evs
        streamError).2.1.overrideKb = ov.overrideKb
    ∧ (∀ sid2 mode2 uc2 atts2 mr2 st2,
        buildChatRequest sid2 mode2 uc2 atts2 mr2 st2
          (handleSend props ov chat false value maxRounds style atts evs
            streamError).2.1.overrideEnabled
          props.modelConfig
          (handleSend props ov chat false value maxRounds style atts evs
            streamError).2.1.overrideModel
          props.kb
          (handleSend props ov chat false value maxRounds style atts evs
            streamError).2.1.overrideKb
        = requestFromBundle sid2 mode2 uc2 atts2 mr2 st2
            props.modelConfig props.kb) := by
  refine ⟨?_, ?_, ?_, ?_, ?_⟩ <;>
    simp [handleSend, hval, hsid, buildChatRequest, requestFromBundle]

/-- Witness for C8: a concrete exchange sent with the override enabled
and ending in a stream error still clears the flag and leaves the next
request on session defaults. -/
theorem override_supersedes_once_witness :
    (handleSend sampleProps sampleOverrideOn initialChatState false "hi" 2
        DebateStyle.clash [] [] (some "boom")).1.isSome = true
    ∧ (handleSend sampleProps sampleOverrideOn initialChatState false "hi" 2
        DebateStyle.clash [] [] (some "boom")).2.1.overrideEnabled = false
    ∧ buildChatRequest "s1" DiscussionMode.free "again" [] 2 DebateStyle.clash
        (handleSend sampleProps sampleOverrideOn initialChatState false "hi" 2
          DebateStyle.clash [] [] (some "boom")).2.1.overrideEnabled
        sampleProps.modelConfig
        (handleSend sampleProps sampleOverrideOn initialChatState false "hi" 2
          DebateStyle.clash [] [] (some "boom")).2.1.overrideModel
        sampleProps.kb
        (handleSend sampleProps sampleOverrideOn initialChatState false "hi" 2
          DebateStyle.clash [] [] (some "boom")).2.1.overrideKb
      = requestFromBundle "s1" DiscussionMode.free "again" [] 2 DebateStyle.clash
          sampleProps.modelConfig sampleProps.kb := by
  have h := override_supersedes_once sampleProps sampleOverrideOn initialChatState
    "hi" 2 DebateStyle.clash [] [] (some "boom") "s1" (by decide) (by decide)
  exact ⟨h.1, h.2.1, h.2.2.2.2 "s1" DiscussionMode.free "again" [] 2 DebateStyle.clash⟩

/-! ### Event projection lemmas for the orchestrator model -/

lemma eventsOf_nil : eventsOf [] = [] := rfl

lemma eventsOf_cons_ev (e : SEvent) (rest : List Action) :
    eventsOf (Action.ev e :: rest) = e :: eventsOf rest := rfl

lemma eventsOf_cons_kb (rest : List Action) :
    eventsOf (Action.kbFetch :: rest) = eventsOf rest := rfl

lemma eventsOf_cons_gen (p : Prompt) (rest : List Action) :
    eventsOf (Action.genRequest p :: rest) = eventsOf rest := rfl

lemma eventsOf_append (xs ys : List Action) :
    eventsOf (xs ++ ys) = eventsOf xs ++ eventsOf ys :=
  List.filterMap_append xs ys actionEvent

lemma eventsOf_map_content (c : String) (l : List String) :
    eventsOf (l.map (fun t => Action.ev (SEvent.content c t)))
      = l.map (SEvent.content c) := by
  induction l with
  | nil => rfl
  | cons a rest ih => rw [List.map_cons, eventsOf_cons_ev, ih, List.map_cons]

lemma eventsOf_kb_ite (b : Bool) :
    eventsOf (if b = true then [Action.kbFetch] else []) = [] := by
  cases b <;> rfl

lemma eventsOf_coachTurnActions (style : DebateStyle)
    (gen : String → Nat → List String) (fails : String → Nat → Bool)
    (c : String) (r : Nat) :
    eventsOf (coachTurnActions style gen fails c r) = coachTurnEvents gen fails c r := by
  unfold coachTurnActions coachTurnEvents
  by_cases hf : fails c r
  · rw [if_pos hf, if_pos hf, eventsOf_cons_gen]
    rfl
  · rw [if_neg hf, if_neg hf, eventsOf_cons_gen, eventsOf_append, eventsOf_cons_ev,
      eventsOf_map_content]
    rfl

lemma eventsOf_coachPhase (timing : KbTiming) (style : DebateStyle)
    (gen : String → Nat → List String) (fails : String → Nat → Bool)
    (c : String) (r : Nat) :
    eventsOf (coachPhase timing style gen fails c r) = coachTurnEvents gen fails c r := by
  unfold coachPhase
  rw [eventsOf_append, eventsOf_coachTurnActions]
  by_cases h : timing = KbTiming.coach
  · rw [if_pos h]
    rfl
  · rw [if_neg h]
    rfl

lemma eventsOf_flatMap_coachPhase (timing : KbTiming) (style : DebateStyle)
    (gen : String → Nat → List String) (fails : String → Nat → Bool)
    (r : Nat) (active : List String) :
    eventsOf (active.flatMap (fun c => coachPhase timing style gen fails c r))
      = active.flatMap (fun c => coachTurnEvents gen fails c r) := by
  induction active with
  | nil => rfl
  | cons a rest ih =>
      rw [List.flatMap_cons, List.flatMap_cons, eventsOf_append,
        eventsOf_coachPhase, ih]

lemma eventsOf_roundActions (timing : KbTiming) (style : DebateStyle)
    (gen : String → Nat → List String) (fails : String → Nat → Bool)
    (r : Nat) (active : List String) :
    eventsOf (roundActions timing style gen fails r active)
      = SEvent.round_start r ::
          active.flatMap (fun c => coachTurnEvents gen fails c r) := by
  unfold roundActions
  rw [eventsOf_append]
  have h1 : eventsOf (if timing = KbTiming.round then [Action.kbFetch] else []) = [] := by
    by_cases h : timing = KbTiming.round
    · rw [if_pos h]
      rfl
    · rw [if_neg h]
      rfl
  rw [h1, List.nil_append, eventsOf_cons_ev, eventsOf_flatMap_coachPhase]

lemma eventsOf_moderatorTurn (timing : KbTiming) (style : DebateStyle)
    (m : String) (mFrags : List String) (mFails : Bool) (mt : MessageType) :
    eventsOf (moderatorTurn timing style m mFrags mFails mt)
      = (if mFails then
          [SEvent.moderator_start m mt, SEvent.error (some m) failMsg,
           SEvent.error none moderatorFailedMsg]
        else
          SEvent.moderator_start m mt :: mFrags.map (SEvent.content m) ++
            [SEvent.moderator_end m mt, SEvent.done]) := by
  unfold moderatorTurn
  rw [eventsOf_append]
  have h1 : eventsOf (if timing = KbTiming.moderator then [Action.kbFetch] else []) = [] := by
    by_cases h : timing = KbTiming.moderator
    · rw [if_pos h]
      rfl
    · rw [if_neg h]
      rfl
  rw [h1, List.nil_append, eventsOf_cons_gen]
  by_cases hm : mFails
  · rw [if_pos hm, if_pos hm]
    rfl
  · rw [if_neg hm, if_neg hm, eventsOf_append, eventsOf_cons_ev, eventsOf_map_content]
    rfl

lemma survivorsOf_nofail (fails : String → Nat → Bool) (active : List String)
    (r : Nat) (h : ∀ c, fails c r = false) :
    survivorsOf fails active r = active := by
  unfold survivorsOf
  apply List.filter_eq_self.mpr
  intro a _
  simp [h a]

lemma isEmpty_false_of_ne_nil {α : Type} (l : List α) (h : l ≠ []) :
    l.isEmpty = false := by
  cases l with
  | nil => exact absurd rfl h
  | cons a t => rfl

/-- **C3.** A moderated exchange emits exactly one round pair containing
all the coach-turn events, then exactly one moderator pair, then `done`;
there is never a second coach round.  (Stated on the failure-free path;
see C4 for failure handling.) -/
theorem moderated_single_round_shape (cfg : OrchConfig)
    (gen : String → Nat → List String) (fails : String → Nat → Bool)
    (mFrags : List String) (mt : MessageType) (m : String)
    (hmode : cfg.mode = DiscussionMode.moderated)
    (hmod : cfg.moderator = some m)
    (hroster : cfg.roster ≠ [])
    (hfail : ∀ c, fails c 1 = false) :
    ∃ tr, runExchange cfg gen fails mFrags false mt = Except.ok tr ∧
      eventsOf tr
        = SEvent.round_start 1 ::
            (cfg.roster.flatMap (fun c => coachTurnEvents gen fails c 1) ++
             SEvent.round_end 1 ::
               SEvent.moderator_start m mt ::
                 (mFrags.map (SEvent.content m) ++
                  [SEvent.moderator_end m mt, SEvent.done])) ∧
      ∀ e ∈ cfg.roster.flatMap (fun c => coachTurnEvents gen fails c 1),
        isCoachTurnEvent e = true := by
  have hne : cfg.roster.isEmpty = false := isEmpty_false_of_ne_nil _ hroster
  have hsurv : survivorsOf fails cfg.roster 1 = cfg.roster :=
    survivorsOf_nofail fails cfg.roster 1 hfail
  have h1 : eventsOf (if cfg.kbTiming = KbTiming.message then [Action.kbFetch] else []) = [] := by
    by_cases h : cfg.kbTiming = KbTiming.message
    · rw [if_pos h]
      rfl
    · rw [if_neg h]
      rfl
  refine ⟨(if cfg.kbTiming = KbTiming.message then [Action.kbFetch] else []) ++
      runModerated cfg.kbTiming cfg.debateStyle gen fails cfg.roster m mFrags false mt,
      ?_, ?_, ?_⟩
  · simp [runExchange, hne, hmode, hmod]
  · rw [eventsOf_append, h1, List.nil_append]
    unfold runModerated
    rw [hsurv, hne, if_neg (by simp), eventsOf_append, eventsOf_roundActions,
      eventsOf_cons_ev, eventsOf_moderatorTurn, if_neg (by simp)]
    rfl
  · intro e he
    rw [List.mem_flatMap] at he
    obtain ⟨c, hc, he⟩ := he
    unfold coachTurnEvents at he
    rw [hfail c] at he
    simp only [if_neg (by simp : ¬(false = true)), List.mem_cons, List.mem_append,
      List.mem_map, List.mem_singleton] at he
    rcases he with (h1 | ⟨t, ht, h2⟩) | (h3 | h4)
    · rw [h1]
      rfl
    · rw [← h2]
      rfl
    · rw [h3]
      rfl
    · exact absurd h4 (List.not_mem_nil e)

/-- Witness for C3: a concrete moderated exchange with two coaches. -/
theorem moderated_single_round_shape_witness :
    ∃ tr, runExchange
        { mode := DiscussionMode.moderated, roster := ["A", "B"],
          moderator := some "M", maxRounds := 1,
          debateStyle := DebateStyle.converge, kbTiming := KbTiming.off }
        (fun c _ => if c = "A" then ["x1", "x2"] else ["y"])
        (fun _ _ => false) ["sum"] false MessageType.summary = Except.ok tr ∧
      eventsOf tr
        = SEvent.round_start 1 ::
            ((["A", "B"] : List String).flatMap (fun c =>
              coachTurnEvents (fun c2 _ => if c2 = "A" then ["x1", "x2"] else ["y"])
                (fun _ _ => false) c 1) ++
             SEvent.round_end 1 ::
               SEvent.moderator_start "M" MessageType.summary ::
                 ((["sum"] : List String).map (SEvent.content "M") ++
                  [SEvent.moderator_end "M" MessageType.summary, SEvent.done])) ∧
      ∀ e ∈ (["A", "B"] : List String).flatMap (fun c =>
          coachTurnEvents (fun c2 _ => if c2 = "A" then ["x1", "x2"] else ["y"])
            (fun _ _ => false) c 1),
        isCoachTurnEvent e = true :=
  moderated_single_round_shape
    { mode := DiscussionMode.moderated, roster := ["A", "B"],
      moderator := some "M", maxRounds := 1,
      debateStyle := DebateStyle.converge, kbTiming := KbTiming.off }
    (fun c _ => if c = "A" then ["x1", "x2"] else ["y"])
    (fun _ _ => false) ["sum"] MessageType.summary "M"
    rfl rfl (by decide) (fun c => rfl)

lemma eventsOf_runFree_style (timing : KbTiming) (d1 d2 : DebateStyle)
    (gen : String → Nat → List String) (fails : String → Nat → Bool)
    (rem : Nat) : ∀ (r : Nat) (active : List String),
    eventsOf (runFree timing d1 gen fails r rem active)
      = eventsOf (runFree timing d2 gen fails r rem active) := by
  induction rem with
  | zero =>
      intro r active
      rfl
  | succ n ih =>
      intro r active
      simp only [runFree]
      rw [eventsOf_append, eventsOf_append, eventsOf_roundActions,
        eventsOf_roundActions]
      by_cases h : (survivorsOf fails active r).isEmpty
      · rw [if_pos h, if_pos h]
      · rw [if_neg h, if_neg h, eventsOf_cons_ev, eventsOf_cons_ev, ih]

lemma eventsOf_runModerated_style (timing : KbTiming) (d1 d2 : DebateStyle)
    (gen : String → Nat → List String) (fails : String → Nat → Bool)
    (roster : List String) (m : String) (mFrags : List String)
    (mFails : Bool) (mt : MessageType) :
    eventsOf (runModerated timing d1 gen fails roster m mFrags mFails mt)
      = eventsOf (runModerated timing d2 gen fails roster m mFrags mFails mt) := by
  unfold runModerated
  rw [eventsOf_append, eventsOf_append, eventsOf_roundActions, eventsOf_roundActions]
  by_cases h : (survivorsOf fails roster 1).isEmpty
  · rw [if_pos h, if_pos h]
  · rw [if_neg h, if_neg h, eventsOf_cons_ev, eventsOf_cons_ev,
      eventsOf_moderatorTurn, eventsOf_moderatorTurn]

/-- **C7.** Requests for non-free sessions carry no debate style, free
requests carry exactly the selected one; and in the orchestrator two
exchanges differing only in debate style produce identical outbound
event streams (the style changes only the persona instructions inside
the assembled prompt, compared here field by field). -/
theorem debate_style_cosmetic (cfg : OrchConfig) (d1 d2 : DebateStyle)
    (gen : String → Nat → List String) (fails : String → Nat → Bool)
    (mFrags : List String) (mFails : Bool) (mt : MessageType)
    (sessionId userContent : String) (atts : List String) (maxRounds : Nat)
    (overrideEnabled : Bool) (mc omc : ModelConfig) (kbs okbs : KbSettings)
    (c : String) (r : Nat) :
    (buildChatRequest sessionId DiscussionMode.moderated userContent atts
        maxRounds d1 overrideEnabled mc omc kbs okbs).debate_style = none
    ∧ (buildChatRequest sessionId DiscussionMode.free userContent atts
        maxRounds d1 overrideEnabled mc omc kbs okbs).debate_style = some d1
    ∧ (runExchange { cfg with debateStyle := d1 } gen fails mFrags mFails mt).map
        eventsOf
      = (runExchange { cfg with debateStyle := d2 } gen fails mFrags mFails mt).map
          eventsOf
    ∧ assembleTurnPrompt d1 c r
        = { assembleTurnPrompt d2 c r with
            personaInstructions := debateInstructions d1 } := by
  refine ⟨rfl, rfl, ?_, rfl⟩
  obtain ⟨mode, roster, moderator, maxR, ds, timing⟩ := cfg
  cases hne : roster.isEmpty with
  | true => simp [runExchange, hne]
  | false =>
      cases mode with
      | moderated =>
          cases moderator with
          | none => simp [runExchange, hne]
          | some m =>
              simp only [runExchange, hne, Bool.false_eq_true, if_false, Except.map]
              rw [eventsOf_append, eventsOf_append,
                eventsOf_runModerated_style timing d1 d2 gen fails roster m mFrags
                  mFails mt]
      | free =>
          simp only [runExchange, hne, Bool.false_eq_true, if_false, Except.map]
          rw [eventsOf_append, eventsOf_append,
            eventsOf_runFree_style timing d1 d2 gen fails maxR 1 roster]

/-! ### Round-roster bookkeeping lemmas for free mode -/

lemma activeAt_shift (fails : String → Nat → Bool) (base : Nat)
    (roster : List String) (s : Nat) :
    activeAt fails base roster (s + 1)
      = activeAt fails (base + 1) (survivorsOf fails roster base) s := by
  induction s with
  | zero => rfl
  | succ s2 ih =>
      have harith : base + (s2 + 1) = (base + 1) + s2 := by omega
      show survivorsOf fails (activeAt fails base roster (s2 + 1)) (base + (s2 + 1))
        = survivorsOf fails (activeAt fails (base + 1)
            (survivorsOf fails roster base) s2) ((base + 1) + s2)
      rw [ih, harith]

lemma activeAt_subset (fails : String → Nat → Bool) (base : Nat)
    (roster : List String) (s : Nat) (p : String)
    (hp : p ∈ activeAt fails base roster (s + 1)) :
    p ∈ activeAt fails base roster s :=
  (List.mem_filter.mp hp).1

lemma not_in_activeAt_succ (fails : String → Nat → Bool) (base : Nat)
    (roster : List String) (s : Nat) (p : String)
    (hf : fails p (base + s) = true) :
    p ∉ activeAt fails base roster (s + 1) := by
  intro hmem
  have h2 := (List.mem_filter.mp hmem).2
  simp [hf] at h2

lemma not_in_activeAt_after (fails : String → Nat → Bool) (base : Nat)
    (roster : List String) (s : Nat) (p : String)
    (hf : fails p (base + s) = true) :
    ∀ s2, s < s2 → p ∉ activeAt fails base roster s2 := by
  intro s2 hs
  induction s2 with
  | zero => omega
  | succ n ih =>
      by_cases hn : s < n
      · intro hmem
        exact ih hn (activeAt_subset fails base roster n p hmem)
      · have heq : n = s := by omega
        subst heq
        exact not_in_activeAt_succ fails base roster n p hf

lemma runFree_ne_nil (timing : KbTiming) (style : DebateStyle)
    (gen : String → Nat → List String) (fails : String → Nat → Bool)
    (r rem : Nat) (active : List String) :
    runFree timing style gen fails r rem active ≠ [] := by
  cases rem with
  | zero => simp [runFree]
  | succ n =>
      simp only [runFree]
      intro h
      have h2 := (List.append_eq_nil.mp h).2
      by_cases hs : (survivorsOf fails active r).isEmpty
      · rw [if_pos hs] at h2
        exact List.cons_ne_nil _ _ h2
      · rw [if_neg hs] at h2
        exact List.cons_ne_nil _ _ h2

lemma getLast?_append_right {α : Type} (xs ys : List α) (h : ys ≠ []) :
    (xs ++ ys).getLast? = ys.getLast? := by
  induction xs with
  | nil => rfl
  | cons a rest ih =>
      have hne : rest ++ ys ≠ [] := by
        intro h2
        exact h (List.append_eq_nil.mp h2).2
      rw [List.cons_append]
      cases hrest : rest ++ ys with
      | nil => exact absurd hrest hne
      | cons b l =>
          rw [hrest] at ih
          rw [List.getLast?_cons_cons, ih]

lemma runFree_getLast_done (timing : KbTiming) (style : DebateStyle)
    (gen : String → Nat → List String) (fails : String → Nat → Bool) :
    ∀ (rem r : Nat) (active : List String),
    (∀ s, s < rem → survivorsOf fails (activeAt fails r active s) (r + s) ≠ []) →
    (runFree timing style gen fails r rem active).getLast?
      = some (Action.ev SEvent.done)
  | 0, r, active, _ => rfl
  | n + 1, r, active, h => by
      have h0 : survivorsOf fails active r ≠ [] := by
        have := h 0 (Nat.succ_pos n)
        simpa [activeAt] using this
      simp only [runFree]
      rw [if_neg (by simp [isEmpty_false_of_ne_nil _ h0])]
      rw [getLast?_append_right _ _ (List.cons_ne_nil _ _)]
      have hrec := runFree_getLast_done timing style gen fails n (r + 1)
        (survivorsOf fails active r) ?_
      · cases hrest : runFree timing style gen fails (r + 1) n
            (survivorsOf fails active r) with
        | nil => exact absurd hrest (runFree_ne_nil timing style gen fails (r + 1) n _)
        | cons b l =>
            rw [hrest] at hrec
            rw [List.getLast?_cons_cons, hrec]
      · intro s hs
        have := h (s + 1) (by omega)
        rw [activeAt_shift] at this
        have harith : r + (s + 1) = (r + 1) + s := by omega
        rw [harith] at this
        exact this

lemma error_mem_runFree (timing : KbTiming) (style : DebateStyle)
    (gen : String → Nat → List String) (fails : String → Nat → Bool) :
    ∀ (rem r : Nat) (active : List String) (p : String) (s : Nat),
    s < rem →
    (∀ s2, s2 < s → survivorsOf fails (activeAt fails r active s2) (r + s2) ≠ []) →
    p ∈ activeAt fails r active s → fails p (r + s) = true →
    Action.ev (SEvent.error (some p) failMsg) ∈ runFree timing style gen fails r rem active := by
  intro rem
  induction rem with
  | zero =>
      intro r active p s hs
      omega
  | succ n ih =>
      intro r active p s hs hreach hp hf
      simp only [runFree]
      cases s with
      | zero =>
          apply List.mem_append_left
          unfold roundActions
          apply List.mem_append_right
          apply List.mem_cons_of_mem
          rw [List.mem_flatMap]
          refine ⟨p, hp, ?_⟩
          unfold coachPhase
          apply List.mem_append_right
          unfold coachTurnActions
          apply List.mem_cons_of_mem
          rw [Nat.add_zero] at hf
          rw [if_pos hf]
          simp
      | succ s2 =>
          apply List.mem_append_right
          have h0 : survivorsOf fails active r ≠ [] := by
            have := hreach 0 (Nat.succ_pos s2)
            simpa [activeAt] using this
          rw [if_neg (by simp [isEmpty_false_of_ne_nil _ h0])]
          apply List.mem_cons_of_mem
          apply ih (r + 1) (survivorsOf fails active r) p s2 (by omega)
          · intro s3 hs3
            have := hreach (s3 + 1) (by omega)
            rw [activeAt_shift] at this
            have harith : r + (s3 + 1) = (r + 1) + s3 := by omega
            rw [harith] at this
            exact this
          · have hp2 := hp
            rw [activeAt_shift] at hp2
            exact hp2
          · have harith : r + (s2 + 1) = (r + 1) + s2 := by omega
            rw [harith] at hf
            exact hf

lemma unscoped_error_not_mem_roundActions (timing : KbTiming) (style : DebateStyle)
    (gen : String → Nat → List String) (fails : String → Nat → Bool)
    (r : Nat) (active : List String) (msg : String) :
    Action.ev (SEvent.error none msg) ∉ roundActions timing style gen fails r active := by
  intro h
  unfold roundActions at h
  rcases List.mem_append.mp h with h1 | h2
  · by_cases ht : timing = KbTiming.round
    · rw [if_pos ht] at h1
      simp at h1
    · rw [if_neg ht] at h1
      simp at h1
  · rcases List.mem_cons.mp h2 with h3 | h4
    · simp at h3
    · rw [List.mem_flatMap] at h4
      obtain ⟨c, hc, h5⟩ := h4
      unfold coachPhase at h5
      rcases List.mem_append.mp h5 with h6 | h7
      · by_cases ht : timing = KbTiming.coach
        · rw [if_pos ht] at h6
          simp at h6
        · rw [if_neg ht] at h6
          simp at h6
      · unfold coachTurnActions at h7
        rcases List.mem_cons.mp h7 with h8 | h9
        · simp at h8
        · by_cases hfc : fails c r
          · rw [if_pos hfc] at h9
            simp at h9
          · rw [if_neg hfc] at h9
            rcases List.mem_append.mp h9 with h10 | h11
            · rcases List.mem_cons.mp h10 with h12 | h13
              · simp at h12
              · rw [List.mem_map] at h13
                obtain ⟨t, _, h14⟩ := h13
                simp at h14
            · simp at h11

lemma unscoped_error_not_mem_runFree (timing : KbTiming) (style : DebateStyle)
    (gen : String → Nat → List String) (fails : String → Nat → Bool) :
    ∀ (rem r : Nat) (active : List String),
    (∀ s, s < rem → survivorsOf fails (activeAt fails r active s) (r + s) ≠ []) →
    ∀ msg, Action.ev (SEvent.error none msg) ∉ runFree timing style gen fails r rem active := by
  intro rem
  induction rem with
  | zero =>
      intro r active h msg hmem
      simp [runFree] at hmem
  | succ n ih =>
      intro r active h msg hmem
      simp only [runFree] at hmem
      rcases List.mem_append.mp hmem with h1 | h2
      · exact unscoped_error_not_mem_roundActions timing style gen fails r active msg h1
      · have h0 : survivorsOf fails active r ≠ [] := by
          have := h 0 (Nat.succ_pos n)
          simpa [activeAt] using this
        rw [if_neg (by simp [isEmpty_false_of_ne_nil _ h0])] at h2
        rcases List.mem_cons.mp h2 with h3 | h4
        · simp at h3
        · refine ih (r + 1) (survivorsOf fails active r) ?_ msg h4
          intro s hs
          have := h (s + 1) (by omega)
          rw [activeAt_shift] at this
          have harith : r + (s + 1) = (r + 1) + s := by omega
          rw [harith] at this
          exact this

/-- **C4.** In a free-mode exchange in which every round keeps at least
one surviving participant, a participant whose turn fails unrecoverably
in round `1 + s` gets a turn-scoped error event, is excluded from the
active roster of every later round, the exchange still ends with `done`,
and no unscoped (exchange-fatal) error is ever emitted. -/
theorem free_mode_failure_isolation (cfg : OrchConfig)
    (gen : String → Nat → List String) (fails : String → Nat → Bool)
    (mFrags : List String) (mFails : Bool) (mt : MessageType)
    (hmode : cfg.mode = DiscussionMode.free)
    (hroster : cfg.roster ≠ [])
    (hsurv : ∀ s, s < cfg.maxRounds →
      survivorsOf fails (activeAt fails 1 cfg.roster s) (1 + s) ≠ []) :
    ∃ tr, runExchange cfg gen fails mFrags mFails mt = Except.ok tr ∧
      tr.getLast? = some (Action.ev SEvent.done) ∧
      (∀ p s, s < cfg.maxRounds → p ∈ activeAt fails 1 cfg.roster s →
        fails p (1 + s) = true →
        Action.ev (SEvent.error (some p) failMsg) ∈ tr ∧
        ∀ s2, s < s2 → p ∉ activeAt fails 1 cfg.roster s2) ∧
      (∀ msg, Action.ev (SEvent.error none msg) ∉ tr) := by
  have hne : cfg.roster.isEmpty = false := isEmpty_false_of_ne_nil _ hroster
  refine ⟨(if cfg.kbTiming = KbTiming.message then [Action.kbFetch] else []) ++
      runFree cfg.kbTiming cfg.debateStyle gen fails 1 cfg.maxRounds cfg.roster,
      ?_, ?_, ?_, ?_⟩
  · simp [runExchange, hne, hmode]
  · rw [getLast?_append_right _ _
      (runFree_ne_nil cfg.kbTiming cfg.debateStyle gen fails 1 cfg.maxRounds cfg.roster)]
    exact runFree_getLast_done cfg.kbTiming cfg.debateStyle gen fails
      cfg.maxRounds 1 cfg.roster hsurv
  · intro p s hs hp hf
    refine ⟨?_, not_in_activeAt_after fails 1 cfg.roster s p hf⟩
    apply List.mem_append_right
    exact error_mem_runFree cfg.kbTiming cfg.debateStyle gen fails
      cfg.maxRounds 1 cfg.roster p s hs (fun s2 h2 => hsurv s2 (by omega)) hp hf
  · intro msg hmem
    rcases List.mem_append.mp hmem with h1 | h2
    · by_cases ht : cfg.kbTiming = KbTiming.message
      · rw [if_pos ht] at h1
        simp at h1
      · rw [if_neg ht] at h1
        simp at h1
    · exact unscoped_error_not_mem_runFree cfg.kbTiming cfg.debateStyle gen fails
        cfg.maxRounds 1 cfg.roster hsurv msg h2

/-- Witness for C4: three rounds with roster `[A, B]` where `A` fails in
round 1 (`s = 0`) and `B` survives every round. -/
theorem free_mode_failure_isolation_witness :
    ∃ tr, runExchange
        { mode := DiscussionMode.free, roster := ["A", "B"], moderator := none,
          maxRounds := 3, debateStyle := DebateStyle.converge,
          kbTiming := KbTiming.off }
        (fun _ _ => ["frag"])
        (fun c r => c = "A" && r = 1) [] false MessageType.response
        = Except.ok tr ∧
      tr.getLast? = some (Action.ev SEvent.done) ∧
      (∀ p s, s < 3 →
        p ∈ activeAt (fun c r => c = "A" && r = 1) 1 ["A", "B"] s →
        (fun c r => c = "A" && r = 1) p (1 + s) = true →
        Action.ev (SEvent.error (some p) failMsg) ∈ tr ∧
        ∀ s2, s < s2 → p ∉ activeAt (fun c r => c = "A" && r = 1) 1 ["A", "B"] s2) ∧
      (∀ msg, Action.ev (SEvent.error none msg) ∉ tr) :=
  free_mode_failure_isolation
    { mode := DiscussionMode.free, roster := ["A", "B"], moderator := none,
      maxRounds := 3, debateStyle := DebateStyle.converge,
      kbTiming := KbTiming.off }
    (fun _ _ => ["frag"]) (fun c r => c = "A" && r = 1) [] false
    MessageType.response rfl (by decide) (by decide)

/-! ### Knowledge-call counting and placement (C6) -/

lemma kbCallCount_append (xs ys : List Action) :
    kbCallCount (xs ++ ys) = kbCallCount xs + kbCallCount ys :=
  List.countP_append _ _ _

lemma kbCallCount_cons_ev (e : SEvent) (rest : List Action) :
    kbCallCount (Action.ev e :: rest) = kbCallCount rest := by
  simp [kbCallCount, List.countP_cons, isKbFetch]

lemma kbCallCount_cons_gen (p : Prompt) (rest : List Action) :
    kbCallCount (Action.genRequest p :: rest) = kbCallCount rest := by
  simp [kbCallCount, List.countP_cons, isKbFetch]

lemma kbCallCount_cons_kb (rest : List Action) :
    kbCallCount (Action.kbFetch :: rest) = kbCallCount rest + 1 := by
  simp [kbCallCount, List.countP_cons, isKbFetch]

lemma kbCallCount_map_content (c : String) (l : List String) :
    kbCallCount (l.map (fun t => Action.ev (SEvent.content c t))) = 0 := by
  induction l with
  | nil => rfl
  | cons a rest ih => rw [List.map_cons, kbCallCount_cons_ev, ih]

lemma kbCallCount_coachTurnActions (style : DebateStyle)
    (gen : String → Nat → List String) (fails : String → Nat → Bool)
    (c : String) (r : Nat) :
    kbCallCount (coachTurnActions style gen fails c r) = 0 := by
  unfold coachTurnActions
  rw [kbCallCount_cons_gen]
  by_cases hf : fails c r
  · rw [if_pos hf, kbCallCount_cons_ev, kbCallCount_cons_ev]
    rfl
  · rw [if_neg hf, kbCallCount_append, kbCallCount_cons_ev, kbCallCount_map_content,
      kbCallCount_cons_ev]
    rfl

lemma kbCallCount_coachPhase_coach (style : DebateStyle)
    (gen : String → Nat → List String) (fails : String → Nat → Bool)
    (c : String) (r : Nat) :
    kbCallCount (coachPhase KbTiming.coach style gen fails c r) = 1 := by
  unfold coachPhase
  rw [if_pos rfl, List.singleton_append, kbCallCount_cons_kb,
    kbCallCount_coachTurnActions]

lemma kbCallCount_flatMap_coach (style : DebateStyle)
    (gen : String → Nat → List String) (fails : String → Nat → Bool)
    (r : Nat) (active : List String) :
    kbCallCount (active.flatMap (fun c => coachPhase KbTiming.coach style gen fails c r))
      = active.length := by
  induction active with
  | nil => rfl
  | cons c rest ih =>
      rw [List.flatMap_cons, kbCallCount_append, kbCallCount_coachPhase_coach, ih,
        List.length_cons]
      omega

lemma kbCallCount_roundActions_coach (style : DebateStyle)
    (gen : String → Nat → List String) (fails : String → Nat → Bool)
    (r : Nat) (active : List String) :
    kbCallCount (roundActions KbTiming.coach style gen fails r active)
      = active.length := by
  unfold roundActions
  rw [if_neg (by simp), List.nil_append, kbCallCount_cons_ev,
    kbCallCount_flatMap_coach]

lemma kbCallCount_runFree_coach (style : DebateStyle)
    (gen : String → Nat → List String) (fails : String → Nat → Bool)
    (hfail : ∀ c r, fails c r = false) :
    ∀ (rem r : Nat) (active : List String), active ≠ [] →
    kbCallCount (runFree KbTiming.coach style gen fails r rem active)
      = active.length * rem := by
  intro rem
  induction rem with
  | zero =>
      intro r active _
      rw [Nat.mul_zero]
      rfl
  | succ n ih =>
      intro r active hne2
      have hsurv : survivorsOf fails active r = active :=
        survivorsOf_nofail fails active r (fun c => hfail c r)
      simp only [runFree]
      rw [if_neg (by rw [hsurv]; simp [isEmpty_false_of_ne_nil _ hne2])]
      rw [kbCallCount_append, kbCallCount_roundActions_coach, kbCallCount_cons_ev,
        hsurv, ih (r + 1) active hne2, Nat.mul_succ]
      omega

lemma kbCallCount_moderatorTurn_coach (style : DebateStyle) (m : String)
    (mFrags : List String) (mFails : Bool) (mt : MessageType) :
    kbCallCount (moderatorTurn KbTiming.coach style m mFrags mFails mt) = 0 := by
  unfold moderatorTurn
  rw [if_neg (by simp), List.nil_append, kbCallCount_cons_gen]
  by_cases hm : mFails
  · rw [if_pos hm]
    rfl
  · rw [if_neg hm, kbCallCount_append, kbCallCount_cons_ev,
      kbCallCount_map_content, kbCallCount_cons_ev, kbCallCount_cons_ev]
    rfl

lemma chain'_of_no_fetch (l : List Action) (h : kbCallCount l = 0) :
    List.Chain' fetchAdjacent l := by
  induction l with
  | nil => exact List.chain'_nil
  | cons a rest ih =>
      rw [List.chain'_cons']
      constructor
      · intro b _ hak
        subst hak
        rw [kbCallCount_cons_kb] at h
        omega
      · apply ih
        cases a with
        | kbFetch =>
            rw [kbCallCount_cons_kb] at h
            omega
        | genRequest p =>
            rw [kbCallCount_cons_gen] at h
            exact h
        | ev e =>
            rw [kbCallCount_cons_ev] at h
            exact h

lemma coachTurnActions_ne_nil (style : DebateStyle)
    (gen : String → Nat → List String) (fails : String → Nat → Bool)
    (c : String) (r : Nat) :
    coachTurnActions style gen fails c r ≠ [] := by
  unfold coachTurnActions
  exact List.cons_ne_nil _ _

lemma getLast?_coachTurnActions_success (style : DebateStyle)
    (gen : String → Nat → List String) (fails : String → Nat → Bool)
    (c : String) (r : Nat) (hf : fails c r = false) :
    (coachTurnActions style gen fails c r).getLast?
      = some (Action.ev (SEvent.coach_end c)) := by
  unfold coachTurnActions
  rw [if_neg (by simp [hf]), ← List.cons_append, List.getLast?_concat]

lemma chain'_coachPhase_coach (style : DebateStyle)
    (gen : String → Nat → List String) (fails : String → Nat → Bool)
    (c : String) (r : Nat) :
    List.Chain' fetchAdjacent (coachPhase KbTiming.coach style gen fails c r) := by
  unfold coachPhase
  rw [if_pos rfl, List.singleton_append, List.chain'_cons']
  constructor
  · intro b hb _
    unfold coachTurnActions at hb
    rw [List.head?_cons, Option.mem_def, Option.some_inj] at hb
    exact ⟨_, hb.symm⟩
  · exact chain'_of_no_fetch _ (kbCallCount_coachTurnActions style gen fails c r)

lemma getLast?_coachPhase_coach_success (style : DebateStyle)
    (gen : String → Nat → List String) (fails : String → Nat → Bool)
    (c : String) (r : Nat) (hf : fails c r = false) :
    (coachPhase KbTiming.coach style gen fails c r).getLast?
      = some (Action.ev (SEvent.coach_end c)) := by
  unfold coachPhase
  rw [if_pos rfl, getLast?_append_right _ _ (coachTurnActions_ne_nil style gen fails c r),
    getLast?_coachTurnActions_success style gen fails c r hf]

lemma chain'_flatMap_coach (style : DebateStyle)
    (gen : String → Nat → List String) (fails : String → Nat → Bool)
    (r : Nat) (active : List String) (hfail : ∀ c, fails c r = false) :
    List.Chain' fetchAdjacent
      (active.flatMap (fun c => coachPhase KbTiming.coach style gen fails c r))
    ∧ ∀ x ∈ (active.flatMap
        (fun c => coachPhase KbTiming.coach style gen fails c r)).getLast?,
        x ≠ Action.kbFetch := by
  induction active with
  | nil =>
      exact ⟨List.chain'_nil, by intro x hx; simp at hx⟩
  | cons c rest ih =>
      rw [List.flatMap_cons]
      constructor
      · rw [List.chain'_append]
        refine ⟨chain'_coachPhase_coach style gen fails c r, ih.1, ?_⟩
        intro x hx y _
        rw [getLast?_coachPhase_coach_success style gen fails c r (hfail c),
          Option.mem_def, Option.some_inj] at hx
        intro hak
        rw [← hx] at hak
        exact absurd hak (by simp)
      · intro x hx
        cases hrest : rest.flatMap (fun c2 => coachPhase KbTiming.coach style gen fails c2 r) with
        | nil =>
            rw [hrest, List.append_nil,
              getLast?_coachPhase_coach_success style gen fails c r (hfail c),
              Option.mem_def, Option.some_inj] at hx
            rw [← hx]
            simp
        | cons b l =>
            rw [hrest, getLast?_append_right _ _ (List.cons_ne_nil b l)] at hx
            apply ih.2
            rw [hrest]
            exact hx

lemma chain'_roundActions_coach (style : DebateStyle)
    (gen : String → Nat → List String) (fails : String → Nat → Bool)
    (r : Nat) (active : List String) (hfail : ∀ c, fails c r = false) :
    List.Chain' fetchAdjacent (roundActions KbTiming.coach style gen fails r active)
    ∧ ∀ x ∈ (roundActions KbTiming.coach style gen fails r active).getLast?,
        x ≠ Action.kbFetch := by
  unfold roundActions
  rw [if_neg (by simp), List.nil_append]
  constructor
  · rw [List.chain'_cons']
    refine ⟨?_, (chain'_flatMap_coach style gen fails r active hfail).1⟩
    intro b _ hak
    exact absurd hak (by simp)
  · intro x hx
    cases hrest : active.flatMap (fun c => coachPhase KbTiming.coach style gen fails c r) with
    | nil =>
        rw [hrest] at hx
        simp at hx
        subst hx
        simp
    | cons b l =>
        rw [hrest, List.getLast?_cons_cons] at hx
        apply (chain'_flatMap_coach style gen fails r active hfail).2
        rw [hrest]
        exact hx

lemma chain'_runFree_coach (style : DebateStyle)
    (gen : String → Nat → List String) (fails : String → Nat → Bool)
    (hfail : ∀ c r, fails c r = false) :
    ∀ (rem r : Nat) (active : List String),
    List.Chain' fetchAdjacent (runFree KbTiming.coach style gen fails r rem active)
    ∧ ∀ x ∈ (runFree KbTiming.coach style gen fails r rem active).getLast?,
        x ≠ Action.kbFetch := by
  intro rem
  induction rem with
  | zero =>
      intro r active
      constructor
      · exact List.chain'_singleton _
      · intro x hx
        simp [runFree] at hx
        subst hx
        simp
  | succ n ih =>
      intro r active
      have hchain := (chain'_roundActions_coach style gen fails r active
        (fun c => hfail c r)).1
      have hlast := (chain'_roundActions_coach style gen fails r active
        (fun c => hfail c r)).2
      simp only [runFree]
      by_cases hemp : (survivorsOf fails active r).isEmpty
      · rw [if_pos hemp]
        constructor
        · rw [List.chain'_append]
          refine ⟨hchain, List.chain'_singleton _, ?_⟩
          intro x hx y _ hak
          exact absurd hak (hlast x hx)
        · intro x hx
          rw [getLast?_append_right _ _ (List.cons_ne_nil _ _)] at hx
          simp at hx
          subst hx
          simp
      · rw [if_neg hemp]
        constructor
        · rw [List.chain'_append]
          refine ⟨hchain, ?_, ?_⟩
          · rw [List.chain'_cons']
            refine ⟨?_, (ih (r + 1) (survivorsOf fails active r)).1⟩
            intro b _ hak
            exact absurd hak (by simp)
          · intro x hx y _ hak
            exact absurd hak (hlast x hx)
        · intro x hx
          rw [getLast?_append_right _ _ (List.cons_ne_nil _ _)] at hx
          cases hrest : runFree KbTiming.coach style gen fails (r + 1) n
              (survivorsOf fails active r) with
          | nil =>
              exact absurd hrest
                (runFree_ne_nil KbTiming.coach style gen fails (r + 1) n _)
          | cons b l =>
              rw [hrest, List.getLast?_cons_cons] at hx
              apply (ih (r + 1) (survivorsOf fails active r)).2
              rw [hrest]
              exact hx

/-- **C6.** With `kb_timing = coach`, an exchange over a roster of `K`
coaches and `R` coach rounds (`R = maxRounds` in free mode, `R = 1` in
moderated mode) calls the Knowledge Capability exactly `K * R` times, and
every fetch is immediately followed by the generation request of a turn
(the fetch happens immediately before that coach's turn).  Stated on the
failure-free path. -/
theorem kb_coach_timing_call_count (cfg : OrchConfig)
    (gen : String → Nat → List String) (fails : String → Nat → Bool)
    (mFrags : List String) (mt : MessageType)
    (htiming : cfg.kbTiming = KbTiming.coach)
    (hroster : cfg.roster ≠ [])
    (hfail : ∀ c r, fails c r = false)
    (hvalid : cfg.mode = DiscussionMode.free ∨ cfg.moderator.isSome = true) :
    ∃ tr, runExchange cfg gen fails mFrags false mt = Except.ok tr ∧
      kbCallCount tr = cfg.roster.length * roundBudget cfg ∧
      List.Chain' fetchAdjacent tr := by
  obtain ⟨mode, roster, moderator, maxR, ds, timing⟩ := cfg
  replace htiming : timing = KbTiming.coach := htiming
  replace hroster : roster ≠ [] := hroster
  replace hvalid : mode = DiscussionMode.free ∨ moderator.isSome = true := hvalid
  subst htiming
  have hne : roster.isEmpty = false := isEmpty_false_of_ne_nil _ hroster
  cases mode with
  | free =>
      refine ⟨runFree KbTiming.coach ds gen fails 1 maxR roster, ?_, ?_, ?_⟩
      · simp [runExchange, hne]
      · rw [kbCallCount_runFree_coach ds gen fails hfail maxR 1 roster hroster]
        rfl
      · exact (chain'_runFree_coach ds gen fails hfail maxR 1 roster).1
  | moderated =>
      rcases hvalid with h | h
      · exact absurd h (by simp)
      · cases hm : moderator with
        | none =>
            rw [hm] at h
            simp at h
        | some m =>
            have hsurv : survivorsOf fails roster 1 = roster :=
              survivorsOf_nofail fails roster 1 (fun c => hfail c 1)
            refine ⟨runModerated KbTiming.coach ds gen fails roster m mFrags
              false mt, ?_, ?_, ?_⟩
            · simp [runExchange, hne, hm]
            · unfold runModerated
              rw [hsurv, if_neg (by simp [hne]), kbCallCount_append,
                kbCallCount_roundActions_coach, kbCallCount_cons_ev,
                kbCallCount_moderatorTurn_coach]
              simp [roundBudget]
            · unfold runModerated
              rw [hsurv, if_neg (by simp [hne]), List.chain'_append]
              refine ⟨(chain'_roundActions_coach ds gen fails 1 roster
                  (fun c => hfail c 1)).1, ?_, ?_⟩
              · rw [List.chain'_cons']
                refine ⟨?_, chain'_of_no_fetch _
                  (kbCallCount_moderatorTurn_coach ds m mFrags false mt)⟩
                intro b _ hak
                exact absurd hak (by simp)
              · intro x hx y _ hak
                exact absurd hak ((chain'_roundActions_coach ds gen fails 1 roster
                  (fun c => hfail c 1)).2 x hx)

/-- Witness for C6: two coaches and two free-mode rounds give exactly
four knowledge fetches, each immediately before a turn. -/
theorem kb_coach_timing_call_count_witness :
    ∃ tr, runExchange
        { mode := DiscussionMode.free, roster := ["A", "B"], moderator := none,
          maxRounds := 2, debateStyle := DebateStyle.converge,
          kbTiming := KbTiming.coach }
        (fun _ _ => ["frag"]) (fun _ _ => false) [] false MessageType.response
        = Except.ok tr ∧
      kbCallCount tr
        = (["A", "B"] : List String).length * roundBudget
            { mode := DiscussionMode.free, roster := ["A", "B"], moderator := none,
              maxRounds := 2, debateStyle := DebateStyle.converge,
              kbTiming := KbTiming.coach } ∧
      List.Chain' fetchAdjacent tr :=
  kb_coach_timing_call_count
    { mode := DiscussionMode.free, roster := ["A", "B"], moderator := none,
      maxRounds := 2, debateStyle := DebateStyle.converge,
      kbTiming := KbTiming.coach }
    (fun _ _ => ["frag"]) (fun _ _ => false) [] MessageType.response
    rfl (by decide) (fun c r => rfl) (Or.inl rfl)

end AIWendy

